import Mathlib

/-!
Shallow embedding of the SVG image API server (`src/server.js`).

The repository contains two variants of the server:
* the inline variant (first half of `server.js`): SVG text is stored in the
  `content` column of the `images` table;
* the filesystem variant (second half of `server.js`): bytes live in an
  `uploads/` directory and the table holds only metadata.

Machine text is modelled as `String`, timestamps (`NOW()`) as `Nat` supplied
by the environment, and the outcome of a database call as a `Bool` flag
(`dbOk`) supplied by the environment.  Multer is modelled by its documented
observable behaviour: the file filter decides when the file header is seen
(before any bytes are consumed), and the 5 MB size limit aborts the parse
with a `MulterError` of code `LIMIT_FILE_SIZE`; a plain error thrown by the
file filter is forwarded unchanged to the express error middleware.
-/

namespace ImageApi

/-- JavaScript falsy-or on an optional string: `x || d` where `null`,
`undefined` and the empty string are falsy. -/
def jsOrStr : Option String → String → String
  | none, d => d
  | some s, d => if s == "" then d else s

/-- JavaScript falsy-or on an optional number: `x || d` where `null`,
`undefined` and `0` are falsy. -/
def jsOrNat : Option Nat → Nat → Nat
  | none, d => d
  | some n, d => if n == 0 then d else n

/-- JavaScript truthiness of an optional string (the `!image.content`
check in the serve handler): `null` and `""` are falsy. -/
def jsTruthyStr : Option String → Bool
  | none => false
  | some s => !(s == "")

/-- `listHasPrefix s pat` holds when `pat` is a prefix of `s`. -/
def listHasPrefix : List Char → List Char → Bool
  | _, [] => true
  | [], _ :: _ => false
  | a :: as, b :: bs => a == b && listHasPrefix as bs

/-- `containsSubAux pat s` holds when `pat` occurs contiguously in `s`. -/
def containsSubAux (pat : List Char) : List Char → Bool
  | [] => listHasPrefix [] pat
  | c :: rest => listHasPrefix (c :: rest) pat || containsSubAux pat rest

/-- `String.prototype.includes`: substring occurrence test. -/
def strIncludes (s pat : String) : Bool :=
  containsSubAux pat.data s.data

/-- `String.prototype.toLowerCase` (ASCII case folding suffices here). -/
def strToLower (s : String) : String :=
  ⟨s.data.map Char.toLower⟩

/-- `String.prototype.endsWith`. -/
def strEndsWith (s pat : String) : Bool :=
  listHasPrefix s.data.reverse pat.data.reverse

/-- The SVG content sniff of the inline upload handler:
`svgContent.includes('<svg') && svgContent.includes('</svg>')`. -/
def svgContentOk (s : String) : Bool :=
  strIncludes s "<svg" && strIncludes s "</svg>"

/-- A multipart file as multer presents it to the application:
client-supplied name, client-supplied MIME type, byte size, and the
payload decoded as UTF-8 text. -/
structure UploadedFile where
  originalname : String
  mimetype : String
  size : Nat
  buffer : String
deriving Repr, DecidableEq

/-- `fileFilter` (identical in both variants): accept when the MIME type is
`image/svg+xml` or the lowercased name ends in `.svg`; otherwise signal the
plain error `Only SVG files are allowed!`. -/
def fileFilter (f : UploadedFile) : Bool :=
  f.mimetype == "image/svg+xml" || strEndsWith (strToLower f.originalname) ".svg"

/-- `limits.fileSize`: 5 * 1024 * 1024 bytes. -/
def fileSizeLimit : Nat := 5 * 1024 * 1024

/-- Errors reaching the express error middleware: either a `MulterError`
carrying a code, or a plain `Error` carrying a message. -/
inductive AppError where
  | multerErr (code : String) (msg : String)
  | plainErr (msg : String)
deriving Repr, DecidableEq

/-- Shape of a JSON error reply `{success, message}` with its HTTP status. -/
structure ErrResp where
  status : Nat
  success : Bool
  message : String
deriving Repr, DecidableEq

/-- The error handling middleware (identical in both variants): a
`MulterError` with code `LIMIT_FILE_SIZE` becomes a 400 with the fixed
message; every other error becomes a 500 echoing `error.message`
(or the fallback text when the message is empty). -/
def errorMiddleware : AppError → ErrResp
  | .multerErr code msg =>
      if code == "LIMIT_FILE_SIZE" then
        { status := 400, success := false, message := "File too large. Maximum size is 5MB." }
      else
        { status := 500, success := false, message := jsOrStr (some msg) "Something went wrong!" }
  | .plainErr msg =>
      { status := 500, success := false, message := jsOrStr (some msg) "Something went wrong!" }

/-- One row of the `images` table in the inline variant:
`id SERIAL, filename TEXT UNIQUE NOT NULL, original_name TEXT, size BIGINT,
content TEXT, mime_type TEXT DEFAULT 'image/svg+xml',
uploaded_at TIMESTAMPTZ DEFAULT NOW()`. -/
structure ImageRow where
  id : Nat
  filename : String
  original_name : Option String
  size : Nat
  content : Option String
  mime_type : Option String
  uploaded_at : Nat
deriving Repr, DecidableEq

/-- The `images` table of the inline variant together with the next value of
the `id` sequence. -/
structure InlineDb where
  rows : List ImageRow
  nextId : Nat
deriving Repr, DecidableEq

/-- The upsert statement of the inline upload handler:
`INSERT ... ON CONFLICT (filename) DO UPDATE SET original_name, size,
content, uploaded_at = NOW()`.  On conflict the existing row keeps its `id`
and its `mime_type`; without conflict a fresh row is appended.  The
`filename` column is UNIQUE, so at most one row can conflict. -/
def upsertRows (fn origName : String) (sz : Nat) (c m : String) (now freshId : Nat) :
    List ImageRow → List ImageRow
  | [] => [{ id := freshId, filename := fn, original_name := some origName, size := sz,
             content := some c, mime_type := some m, uploaded_at := now }]
  | r :: rs =>
      if r.filename == fn then
        { r with original_name := some origName, size := sz, content := some c,
                 uploaded_at := now } :: rs
      else
        r :: upsertRows fn origName sz c m now freshId rs

/-- The upsert at the level of the whole table state (the `SERIAL` sequence
advances on every statement). -/
def upsertImage (db : InlineDb) (fn origName : String) (sz : Nat) (c m : String) (now : Nat) :
    InlineDb :=
  { rows := upsertRows fn origName sz c m now db.nextId db.rows, nextId := db.nextId + 1 }

/-- `SELECT ... FROM images WHERE filename = $1` (the UNIQUE constraint
makes the first match the only match). -/
def findRow (db : InlineDb) (fn : String) : Option ImageRow :=
  db.rows.find? (fun r => r.filename == fn)

/-- Rows surviving `DELETE FROM images WHERE filename = $1`. -/
def deleteRows (fn : String) (rows : List ImageRow) : List ImageRow :=
  rows.filter (fun r => !(r.filename == fn))

/-- `rowCount` of the delete statement. -/
def deleteCount (db : InlineDb) (fn : String) : Nat :=
  (db.rows.filter (fun r => r.filename == fn)).length

/-- The `data` object of a successful upload reply. -/
structure UploadData where
  filename : String
  originalName : String
  size : Nat
  url : String
  directUrl : String
deriving Repr, DecidableEq

/-- Reply of the upload route: status with JSON `{success, message, data?}`. -/
structure UploadResp where
  status : Nat
  success : Bool
  message : String
  data : Option UploadData
deriving Repr, DecidableEq

/-- Reply of the delete route: status with JSON `{success, message}`. -/
structure DeleteResp where
  status : Nat
  success : Bool
  message : String
deriving Repr, DecidableEq

/-- Reply of the serve route: on 404 a JSON message, on 200 the raw body
with the two headers the handler sets. -/
structure ServeResp where
  status : Nat
  message : Option String
  contentType : Option String
  cacheControl : Option String
  body : Option String
deriving Repr, DecidableEq

/-- One entry of the image list reply. -/
structure ListEntry where
  filename : String
  originalName : String
  url : String
  directUrl : String
  size : Nat
  uploadedAt : Nat
deriving Repr, DecidableEq

/-- Reply of the list route. -/
structure ListResp where
  status : Nat
  success : Bool
  message : Option String
  count : Nat
  images : List ListEntry
deriving Repr, DecidableEq

/-- `${req.protocol}://${req.get('host')}/images/${filename}`. -/
def imageUrlOf (proto host fn : String) : String :=
  proto ++ "://" ++ host ++ "/images/" ++ fn

/-- The inline upload handler body (`app.post('/upload')`, inline variant),
entered once multer accepted the file.  It sniffs the decoded text for
`<svg` and `</svg>`, then upserts the row with the constant MIME type
`image/svg+xml`; a failing database call yields the 500 reply and leaves
the table untouched. -/
def uploadHandlerInline (db : InlineDb) (f : UploadedFile) (proto host : String)
    (dbOk : Bool) (now : Nat) : UploadResp × InlineDb :=
  let svgContent := f.buffer
  let filename := f.originalname
  if !(svgContentOk svgContent) then
    ({ status := 400, success := false, message := "Invalid SVG file format", data := none }, db)
  else if dbOk then
    let url := imageUrlOf proto host filename
    ({ status := 200, success := true, message := "SVG image uploaded successfully",
       data := some { filename := filename, originalName := f.originalname, size := f.size,
                      url := url, directUrl := url } },
     upsertImage db filename f.originalname f.size svgContent "image/svg+xml" now)
  else
    ({ status := 500, success := false, message := "Database error while saving image",
       data := none }, db)

/-- The whole inline upload route: multer stage (file filter, then size
limit), the error middleware for multer-stage errors, then the handler.
`none` models a request without a usable `image` field. -/
def uploadRequestInline (db : InlineDb) (file : Option UploadedFile) (proto host : String)
    (dbOk : Bool) (now : Nat) : UploadResp × InlineDb :=
  match file with
  | none =>
      ({ status := 400, success := false,
         message := "No file uploaded or invalid file type", data := none }, db)
  | some f =>
      if !(fileFilter f) then
        let e := errorMiddleware (.plainErr "Only SVG files are allowed!")
        ({ status := e.status, success := e.success, message := e.message, data := none }, db)
      else if fileSizeLimit < f.size then
        let e := errorMiddleware (.multerErr "LIMIT_FILE_SIZE" "File too large")
        ({ status := e.status, success := e.success, message := e.message, data := none }, db)
      else
        uploadHandlerInline db f proto host dbOk now

/-- The serve handler (`app.get('/images/:filename')`, inline variant):
404 when no row matches, 404 when the `content` column is null or empty,
otherwise 200 with `Content-Type` from the stored `mime_type` (defaulting
to `image/svg+xml`), the one-year cache header, and the raw text body. -/
def serveContentHandler (db : InlineDb) (fn : String) : ServeResp :=
  match findRow db fn with
  | none =>
      { status := 404, message := some "Image not found",
        contentType := none, cacheControl := none, body := none }
  | some row =>
      match row.content with
      | none =>
          { status := 404,
            message := some "Image content not available. Please re-upload the image.",
            contentType := none, cacheControl := none, body := none }
      | some c =>
          if c == "" then
            { status := 404,
              message := some "Image content not available. Please re-upload the image.",
              contentType := none, cacheControl := none, body := none }
          else
            { status := 200, message := none,
              contentType := some (jsOrStr row.mime_type "image/svg+xml"),
              cacheControl := some "public, max-age=31536000", body := some c }

/-- The delete handler (`app.delete('/images/:filename')`, inline variant):
one delete-and-return statement, 404 when it affected zero rows, otherwise
the fixed success JSON. -/
def deleteHandlerInline (db : InlineDb) (fn : String) : DeleteResp × InlineDb :=
  let db' : InlineDb := { rows := deleteRows fn db.rows, nextId := db.nextId }
  if deleteCount db fn == 0 then
    ({ status := 404, success := false, message := "Image not found" }, db')
  else
    ({ status := 200, success := true, message := "Image deleted successfully" }, db')

/-- Sort key of `ORDER BY uploaded_at DESC`: `a` may precede `b` when the
timestamp of `b` is at most that of `a`. -/
def rowAfter (a b : ImageRow) : Prop :=
  b.uploaded_at ≤ a.uploaded_at

instance : DecidableRel rowAfter := fun a b => Nat.decLe b.uploaded_at a.uploaded_at

instance : IsTotal ImageRow rowAfter := ⟨fun a b => Nat.le_total b.uploaded_at a.uploaded_at⟩

instance : IsTrans ImageRow rowAfter := ⟨fun _ _ _ h1 h2 => Nat.le_trans h2 h1⟩

/-- `ORDER BY uploaded_at DESC` on the rows of the table. -/
def sortRowsDesc (rows : List ImageRow) : List ImageRow :=
  List.insertionSort rowAfter rows

/-- The list-entry construction of the inline list handler. -/
def entryOfRow (proto host : String) (r : ImageRow) : ListEntry :=
  let url := imageUrlOf proto host r.filename
  { filename := r.filename, originalName := jsOrStr r.original_name r.filename,
    url := url, directUrl := url, size := r.size, uploadedAt := r.uploaded_at }

/-- The list handler (`app.get('/images/list')`, inline variant): select all
rows ordered by `uploaded_at DESC` and map them to entries; a failing
database call yields the 500 error reply. -/
def listHandlerInline (db : InlineDb) (proto host : String) (dbOk : Bool) : ListResp :=
  if dbOk then
    let entries := (sortRowsDesc db.rows).map (entryOfRow proto host)
    { status := 200, success := true, message := none,
      count := entries.length, images := entries }
  else
    { status := 500, success := false, message := some "Error fetching image list",
      count := 0, images := [] }

/-- One row of the `images` table in the filesystem variant:
`id SERIAL, filename TEXT UNIQUE NOT NULL, original_name TEXT, size BIGINT,
uploaded_at TIMESTAMPTZ DEFAULT NOW()` (no content, no MIME column). -/
structure FsRow where
  id : Nat
  filename : String
  original_name : Option String
  size : Nat
  uploaded_at : Nat
deriving Repr, DecidableEq

/-- The `images` table of the filesystem variant. -/
structure FsDb where
  rows : List FsRow
  nextId : Nat
deriving Repr, DecidableEq

/-- A file in the `uploads/` directory: name, text content, and the stat
data the list handler may fall back to (`stats.size`, `stats.birthtime`). -/
structure FsFile where
  name : String
  data : String
  statSize : Nat
  birthtime : Nat
deriving Repr, DecidableEq

/-- The `uploads/` directory. -/
structure FsState where
  files : List FsFile
deriving Repr, DecidableEq

/-- The upsert statement of the filesystem upload handler:
`INSERT INTO images (filename, original_name, size) VALUES ...
ON CONFLICT (filename) DO UPDATE SET original_name = EXCLUDED.original_name,
size = EXCLUDED.size`.  On conflict the existing row keeps its `id` and its
`uploaded_at`; the statement does not touch the timestamp. -/
def upsertFsRows (fn origName : String) (sz : Nat) (now freshId : Nat) :
    List FsRow → List FsRow
  | [] => [{ id := freshId, filename := fn, original_name := some origName,
             size := sz, uploaded_at := now }]
  | r :: rs =>
      if r.filename == fn then
        { r with original_name := some origName, size := sz } :: rs
      else
        r :: upsertFsRows fn origName sz now freshId rs

/-- The filesystem-variant upsert at the level of the table state. -/
def upsertFsMeta (db : FsDb) (fn origName : String) (sz : Nat) (now : Nat) : FsDb :=
  { rows := upsertFsRows fn origName sz now db.nextId db.rows, nextId := db.nextId + 1 }

/-- Multer disk storage writing `uploads/<originalname>`: overwrites the
content and size of an existing file of the same name (its creation time
stays), or creates a fresh file. -/
def writeFsFile (fs : FsState) (name payload : String) (sz now : Nat) : FsState :=
  if fs.files.any (fun g => g.name == name) then
    { files := fs.files.map (fun g =>
        if g.name == name then { g with data := payload, statSize := sz } else g) }
  else
    { files := fs.files ++ [{ name := name, data := payload, statSize := sz, birthtime := now }] }

/-- `fs.existsSync` on `uploads/<fn>`. -/
def fsHasFile (fs : FsState) (fn : String) : Bool :=
  fs.files.any (fun g => g.name == fn)

/-- The whole filesystem upload route: multer stage (file filter, then size
limit, with disk storage writing the file only when both pass), then the
handler, whose metadata upsert is best-effort — a failing database call is
logged and the reply still reports success. -/
def uploadRequestFs (fs : FsState) (db : FsDb) (file : Option UploadedFile)
    (proto host : String) (dbOk : Bool) (now : Nat) : UploadResp × FsState × FsDb :=
  match file with
  | none =>
      ({ status := 400, success := false,
         message := "No file uploaded or invalid file type", data := none }, fs, db)
  | some f =>
      if !(fileFilter f) then
        let e := errorMiddleware (.plainErr "Only SVG files are allowed!")
        ({ status := e.status, success := e.success, message := e.message, data := none }, fs, db)
      else if fileSizeLimit < f.size then
        let e := errorMiddleware (.multerErr "LIMIT_FILE_SIZE" "File too large")
        ({ status := e.status, success := e.success, message := e.message, data := none }, fs, db)
      else
        let fs' := writeFsFile fs f.originalname f.buffer f.size now
        let db' := if dbOk then upsertFsMeta db f.originalname f.originalname f.size now else db
        let url := imageUrlOf proto host f.originalname
        ({ status := 200, success := true, message := "SVG image uploaded successfully",
           data := some { filename := f.originalname, originalName := f.originalname,
                          size := f.size, url := url, directUrl := url } }, fs', db')

/-- The delete handler (`app.delete('/images/:filename')`, filesystem
variant): 404 when the file is absent; otherwise unlink it, best-effort
delete the metadata row, and reply with the fixed success JSON. -/
def deleteHandlerFs (fs : FsState) (db : FsDb) (fn : String) (dbOk : Bool) :
    DeleteResp × FsState × FsDb :=
  if !(fsHasFile fs fn) then
    ({ status := 404, success := false, message := "Image not found" }, fs, db)
  else
    let fs' : FsState := { files := fs.files.filter (fun g => !(g.name == fn)) }
    let db' : FsDb :=
      if dbOk then
        { rows := db.rows.filter (fun r => !(r.filename == fn)), nextId := db.nextId }
      else db
    ({ status := 200, success := true, message := "Image deleted successfully" }, fs', db')

/-- The list-entry construction of the filesystem list handler for one
`.svg` file: metadata fields when a row was fetched, otherwise stat
fallback (`meta?.size || stats.size`, `meta?.uploaded_at || stats.birthtime`,
`meta?.original_name || file`). -/
def fsEntryOf (db : FsDb) (dbOk : Bool) (proto host : String) (g : FsFile) : ListEntry :=
  let meta := if dbOk then db.rows.find? (fun r => r.filename == g.name) else none
  let url := imageUrlOf proto host g.name
  { filename := g.name,
    originalName := jsOrStr (meta.bind (fun r => r.original_name)) g.name,
    url := url, directUrl := url,
    size := jsOrNat (meta.map (fun r => r.size)) g.statSize,
    uploadedAt := jsOrNat (meta.map (fun r => r.uploaded_at)) g.birthtime }

/-- The list handler (`app.get('/images/list')`, filesystem variant):
enumerate the `.svg` files on disk, fetch matching metadata rows
(best-effort: a failing database call leaves the map empty), and build an
entry per file. -/
def listHandlerFs (fs : FsState) (db : FsDb) (dbOk : Bool) (proto host : String) : ListResp :=
  let svgFiles := fs.files.filter (fun g => strEndsWith (strToLower g.name) ".svg")
  let entries := svgFiles.map (fsEntryOf db dbOk proto host)
  { status := 200, success := true, message := none,
    count := entries.length, images := entries }

/-- Uniqueness of the `filename` column (the UNIQUE constraint of the
inline table). -/
def UniqueFilenames (rows : List ImageRow) : Prop :=
  rows.Pairwise (fun a b => a.filename ≠ b.filename)

/-- Uniqueness of the `filename` column (filesystem table). -/
def UniqueFsFilenames (rows : List FsRow) : Prop :=
  rows.Pairwise (fun a b => a.filename ≠ b.filename)

/-- Every row of the inline table carries the constant MIME type the upload
handler writes. -/
def MimeInv (db : InlineDb) : Prop :=
  ∀ r ∈ db.rows, r.mime_type = some "image/svg+xml"

theorem svgContentOk_ne_empty {s : String} (h : svgContentOk s = true) : (s == "") = false := by
  by_cases hs : s = ""
  · subst hs
    exact absurd h (by decide)
  · exact beq_eq_false_iff_ne.mpr hs

/-- The row written by a conflicting inline upsert, given the conflicting
row `x`. -/
def updatedRow (x : ImageRow) (origName : String) (sz : Nat) (c : String) (now : Nat) :
    ImageRow :=
  { x with original_name := some origName, size := sz, content := some c, uploaded_at := now }

theorem upsertRows_nil (fn origName : String) (sz : Nat) (c m : String) (now freshId : Nat) :
    upsertRows fn origName sz c m now freshId [] =
      [{ id := freshId, filename := fn, original_name := some origName, size := sz,
         content := some c, mime_type := some m, uploaded_at := now }] :=
  rfl

theorem upsertRows_cons_pos {x : ImageRow} {fn : String} (hx : x.filename = fn)
    (origName : String) (sz : Nat) (c m : String) (now freshId : Nat) (xs : List ImageRow) :
    upsertRows fn origName sz c m now freshId (x :: xs) =
      updatedRow x origName sz c now :: xs := by
  simp [upsertRows, updatedRow, hx]

theorem upsertRows_cons_neg {x : ImageRow} {fn : String} (hx : ¬ x.filename = fn)
    (origName : String) (sz : Nat) (c m : String) (now freshId : Nat) (xs : List ImageRow) :
    upsertRows fn origName sz c m now freshId (x :: xs) =
      x :: upsertRows fn origName sz c m now freshId xs := by
  simp [upsertRows, hx]

theorem find?_upsertRows_self (fn origName : String) (sz : Nat) (c m : String)
    (now freshId : Nat) :
    ∀ rows : List ImageRow, ∃ r',
      (upsertRows fn origName sz c m now freshId rows).find? (fun r => r.filename == fn)
        = some r' ∧
      r'.filename = fn ∧ r'.original_name = some origName ∧ r'.size = sz ∧
      r'.content = some c ∧ r'.uploaded_at = now ∧
      (r'.mime_type = some m ∨ ∃ r, r ∈ rows ∧ r'.mime_type = r.mime_type) := by
  intro rows
  induction rows with
  | nil =>
      rw [upsertRows_nil]
      exact ⟨{ id := freshId, filename := fn, original_name := some origName, size := sz,
               content := some c, mime_type := some m, uploaded_at := now },
             by simp, rfl, rfl, rfl, rfl, rfl, Or.inl rfl⟩
  | cons x xs ih =>
      by_cases hx : x.filename = fn
      · rw [upsertRows_cons_pos hx]
        refine ⟨updatedRow x origName sz c now, ?_, hx, rfl, rfl, rfl, rfl,
                Or.inr ⟨x, List.mem_cons_self x xs, rfl⟩⟩
        exact List.find?_cons_of_pos _ (by simp [updatedRow, hx])
      · rw [upsertRows_cons_neg hx]
        obtain ⟨r', hfind, h1, h2, h3, h4, h5, h6⟩ := ih
        refine ⟨r', ?_, h1, h2, h3, h4, h5, ?_⟩
        · rw [List.find?_cons_of_neg _ (by simp [hx])]
          exact hfind
        · rcases h6 with h6 | ⟨r, hr, hmr⟩
          · exact Or.inl h6
          · exact Or.inr ⟨r, List.mem_cons_of_mem x hr, hmr⟩

theorem find?_upsertRows_found (fn origName : String) (sz : Nat) (c m : String)
    (now freshId : Nat) :
    ∀ rows : List ImageRow, ∀ r, rows.find? (fun q => q.filename == fn) = some r →
      (upsertRows fn origName sz c m now freshId rows).find? (fun q => q.filename == fn)
        = some (updatedRow r origName sz c now) := by
  intro rows
  induction rows with
  | nil => intro r h; simp at h
  | cons x xs ih =>
      intro r h
      by_cases hx : x.filename = fn
      · have hxr : r = x := by
          rw [List.find?_cons_of_pos _ (by simp [hx])] at h
          exact (Option.some_inj.mp h).symm
        subst hxr
        rw [upsertRows_cons_pos hx]
        exact List.find?_cons_of_pos _ (by simp [updatedRow, hx])
      · rw [List.find?_cons_of_neg _ (by simp [hx])] at h
        rw [upsertRows_cons_neg hx, List.find?_cons_of_neg _ (by simp [hx])]
        exact ih r h

theorem mem_upsertRows (fn origName : String) (sz : Nat) (c m : String)
    (now freshId : Nat) :
    ∀ rows : List ImageRow, ∀ y ∈ upsertRows fn origName sz c m now freshId rows,
      y.filename = fn ∨ ∃ z ∈ rows, y.filename = z.filename := by
  intro rows
  induction rows with
  | nil =>
      intro y hy
      rw [upsertRows_nil] at hy
      rcases List.mem_singleton.mp hy with hy
      subst hy
      exact Or.inl rfl
  | cons x xs ih =>
      intro y hy
      by_cases hx : x.filename = fn
      · rw [upsertRows_cons_pos hx] at hy
        rcases List.mem_cons.mp hy with hy | hy
        · subst hy
          exact Or.inr ⟨x, List.mem_cons_self x xs, rfl⟩
        · exact Or.inr ⟨y, List.mem_cons_of_mem x hy, rfl⟩
      · rw [upsertRows_cons_neg hx] at hy
        rcases List.mem_cons.mp hy with hy | hy
        · subst hy
          exact Or.inr ⟨y, List.mem_cons_self y xs, rfl⟩
        · rcases ih y hy with h | ⟨z, hz, hyz⟩
          · exact Or.inl h
          · exact Or.inr ⟨z, List.mem_cons_of_mem x hz, hyz⟩

theorem uniqueFilenames_upsertRows (fn origName : String) (sz : Nat) (c m : String)
    (now freshId : Nat) :
    ∀ rows : List ImageRow, UniqueFilenames rows →
      UniqueFilenames (upsertRows fn origName sz c m now freshId rows) := by
  intro rows
  induction rows with
  | nil => intro _; rw [upsertRows_nil]; exact List.pairwise_singleton _ _
  | cons x xs ih =>
      intro h
      rw [UniqueFilenames, List.pairwise_cons] at h
      obtain ⟨hhead, htail⟩ := h
      by_cases hx : x.filename = fn
      · rw [UniqueFilenames, upsertRows_cons_pos hx, List.pairwise_cons]
        exact ⟨fun y hy => hhead y hy, htail⟩
      · rw [UniqueFilenames, upsertRows_cons_neg hx, List.pairwise_cons]
        refine ⟨fun y hy => ?_, ih htail⟩
        rcases mem_upsertRows fn origName sz c m now freshId xs y hy with hyf | ⟨z, hz, hyz⟩
        · rw [hyf]; exact hx
        · rw [hyz]; exact hhead z hz

theorem mimeInv_upsertRows (fn origName : String) (sz : Nat) (c : String)
    (now freshId : Nat) :
    ∀ rows : List ImageRow, (∀ r ∈ rows, r.mime_type = some "image/svg+xml") →
      ∀ y ∈ upsertRows fn origName sz c "image/svg+xml" now freshId rows,
        y.mime_type = some "image/svg+xml" := by
  intro rows
  induction rows with
  | nil =>
      intro _ y hy
      rw [upsertRows_nil] at hy
      rcases List.mem_singleton.mp hy with hy
      subst hy
      rfl
  | cons x xs ih =>
      intro h y hy
      by_cases hx : x.filename = fn
      · rw [upsertRows_cons_pos hx] at hy
        rcases List.mem_cons.mp hy with hy | hy
        · subst hy
          exact h x (List.mem_cons_self x xs)
        · exact h y (List.mem_cons_of_mem x hy)
      · rw [upsertRows_cons_neg hx] at hy
        rcases List.mem_cons.mp hy with hy | hy
        · subst hy
          exact h y (List.mem_cons_self y xs)
        · exact ih (fun r hr => h r (List.mem_cons_of_mem x hr)) y hy

/-- The row written by a conflicting filesystem-variant upsert, given the
conflicting row `x` (the timestamp is untouched). -/
def updatedFsRow (x : FsRow) (origName : String) (sz : Nat) : FsRow :=
  { x with original_name := some origName, size := sz }

theorem upsertFsRows_nil (fn origName : String) (sz now freshId : Nat) :
    upsertFsRows fn origName sz now freshId [] =
      [{ id := freshId, filename := fn, original_name := some origName, size := sz,
         uploaded_at := now }] :=
  rfl

theorem upsertFsRows_cons_pos {x : FsRow} {fn : String} (hx : x.filename = fn)
    (origName : String) (sz now freshId : Nat) (xs : List FsRow) :
    upsertFsRows fn origName sz now freshId (x :: xs) = updatedFsRow x origName sz :: xs := by
  simp [upsertFsRows, updatedFsRow, hx]

theorem upsertFsRows_cons_neg {x : FsRow} {fn : String} (hx : ¬ x.filename = fn)
    (origName : String) (sz now freshId : Nat) (xs : List FsRow) :
    upsertFsRows fn origName sz now freshId (x :: xs) =
      x :: upsertFsRows fn origName sz now freshId xs := by
  simp [upsertFsRows, hx]

theorem find?_upsertFsRows_found (fn origName : String) (sz now freshId : Nat) :
    ∀ rows : List FsRow, ∀ r, rows.find? (fun q => q.filename == fn) = some r →
      (upsertFsRows fn origName sz now freshId rows).find? (fun q => q.filename == fn)
        = some (updatedFsRow r origName sz) := by
  intro rows
  induction rows with
  | nil => intro r h; simp at h
  | cons x xs ih =>
      intro r h
      by_cases hx : x.filename = fn
      · have hxr : r = x := by
          rw [List.find?_cons_of_pos _ (by simp [hx])] at h
          exact (Option.some_inj.mp h).symm
        subst hxr
        rw [upsertFsRows_cons_pos hx]
        exact List.find?_cons_of_pos _ (by simp [updatedFsRow, hx])
      · rw [List.find?_cons_of_neg _ (by simp [hx])] at h
        rw [upsertFsRows_cons_neg hx, List.find?_cons_of_neg _ (by simp [hx])]
        exact ih r h

theorem mem_upsertFsRows (fn origName : String) (sz now freshId : Nat) :
    ∀ rows : List FsRow, ∀ y ∈ upsertFsRows fn origName sz now freshId rows,
      y.filename = fn ∨ ∃ z ∈ rows, y.filename = z.filename := by
  intro rows
  induction rows with
  | nil =>
      intro y hy
      rw [upsertFsRows_nil] at hy
      rcases List.mem_singleton.mp hy with hy
      subst hy
      exact Or.inl rfl
  | cons x xs ih =>
      intro y hy
      by_cases hx : x.filename = fn
      · rw [upsertFsRows_cons_pos hx] at hy
        rcases List.mem_cons.mp hy with hy | hy
        · subst hy
          exact Or.inr ⟨x, List.mem_cons_self x xs, rfl⟩
        · exact Or.inr ⟨y, List.mem_cons_of_mem x hy, rfl⟩
      · rw [upsertFsRows_cons_neg hx] at hy
        rcases List.mem_cons.mp hy with hy | hy
        · subst hy
          exact Or.inr ⟨y, List.mem_cons_self y xs, rfl⟩
        · rcases ih y hy with h | ⟨z, hz, hyz⟩
          · exact Or.inl h
          · exact Or.inr ⟨z, List.mem_cons_of_mem x hz, hyz⟩

theorem uniqueFsFilenames_upsertFsRows (fn origName : String) (sz now freshId : Nat) :
    ∀ rows : List FsRow, UniqueFsFilenames rows →
      UniqueFsFilenames (upsertFsRows fn origName sz now freshId rows) := by
  intro rows
  induction rows with
  | nil => intro _; rw [upsertFsRows_nil]; exact List.pairwise_singleton _ _
  | cons x xs ih =>
      intro h
      rw [UniqueFsFilenames, List.pairwise_cons] at h
      obtain ⟨hhead, htail⟩ := h
      by_cases hx : x.filename = fn
      · rw [UniqueFsFilenames, upsertFsRows_cons_pos hx, List.pairwise_cons]
        exact ⟨fun y hy => hhead y hy, htail⟩
      · rw [UniqueFsFilenames, upsertFsRows_cons_neg hx, List.pairwise_cons]
        refine ⟨fun y hy => ?_, ih htail⟩
        rcases mem_upsertFsRows fn origName sz now freshId xs y hy with hyf | ⟨z, hz, hyz⟩
        · rw [hyf]; exact hx
        · rw [hyz]; exact hhead z hz

theorem uniqueFilenames_deleteRows (fn : String) (rows : List ImageRow)
    (h : UniqueFilenames rows) : UniqueFilenames (deleteRows fn rows) :=
  h.sublist (List.filter_sublist rows)

theorem deleteRows_not_mem (fn : String) (rows : List ImageRow) :
    ∀ y ∈ deleteRows fn rows, ¬ y.filename = fn := by
  intro y hy
  have := (List.mem_filter.mp hy).2
  simpa using this

/-- A table state with no rows. -/
def emptyDb : InlineDb := { rows := [], nextId := 1 }

/-- An empty uploads directory. -/
def emptyFs : FsState := { files := [] }

/-- A filesystem-variant table state with no rows. -/
def emptyFsDb : FsDb := { rows := [], nextId := 1 }

/-- A well-formed SVG upload named a.svg. -/
def sampleFile : UploadedFile :=
  { originalname := "a.svg", mimetype := "image/svg+xml", size := 11, buffer := "<svg></svg>" }

/-- A non-SVG upload: wrong MIME type and wrong extension. -/
def badFile : UploadedFile :=
  { originalname := "a.txt", mimetype := "text/plain", size := 3, buffer := "hi" }

theorem uploadRequestInline_accepted (db : InlineDb) (f : UploadedFile)
    (proto host : String) (dbOk : Bool) (now : Nat)
    (hff : fileFilter f = true) (hsize : f.size ≤ fileSizeLimit) :
    uploadRequestInline db (some f) proto host dbOk now
      = uploadHandlerInline db f proto host dbOk now := by
  rw [uploadRequestInline]
  rw [hff]
  simp only [Bool.not_true, Bool.false_eq_true, if_false]
  rw [if_neg (Nat.not_lt.mpr hsize)]

theorem jsOrStr_svg : jsOrStr (some "image/svg+xml") "image/svg+xml" = "image/svg+xml" := by
  decide

theorem serveContentHandler_found {db : InlineDb} {fn : String} {row : ImageRow} {c : String}
    (hfind : findRow db fn = some row) (hc : row.content = some c)
    (hne : (c == "") = false) :
    serveContentHandler db fn =
      { status := 200, message := none,
        contentType := some (jsOrStr row.mime_type "image/svg+xml"),
        cacheControl := some "public, max-age=31536000", body := some c } := by
  rw [serveContentHandler, hfind]
  simp only [hc, hne, Bool.false_eq_true, if_false]

/-- C1: a well-formed SVG upload under filename a.svg that succeeds, followed
by GET /images/a.svg, returns the stored content byte-identical to the
uploaded payload, with Content-Type image/svg+xml (round trip of upload then
fetch), over any table state every row of which carries the MIME type the
upload handler writes. -/
theorem C1_upload_then_fetch_round_trip (db : InlineDb) (f : UploadedFile)
    (proto host : String) (now : Nat)
    (hname : f.originalname = "a.svg")
    (hsize : f.size ≤ fileSizeLimit)
    (hsvg : svgContentOk f.buffer = true)
    (hmime : MimeInv db) :
    (uploadRequestInline db (some f) proto host true now).1.status = 200 ∧
    serveContentHandler (uploadRequestInline db (some f) proto host true now).2 "a.svg" =
      { status := 200, message := none, contentType := some "image/svg+xml",
        cacheControl := some "public, max-age=31536000", body := some f.buffer } := by
  have hff : fileFilter f = true := by
    rw [fileFilter, hname]
    have hends : strEndsWith (strToLower "a.svg") ".svg" = true := by decide
    rw [hends, Bool.or_true]
  rw [uploadRequestInline_accepted db f proto host true now hff hsize]
  rw [uploadHandlerInline]
  rw [hsvg]
  simp only [Bool.not_true, Bool.false_eq_true, if_false, if_true]
  refine ⟨trivial, ?_⟩
  rw [hname]
  obtain ⟨r', hfind, h1, h2, h3, h4, h5, h6⟩ :=
    find?_upsertRows_self "a.svg" "a.svg" f.size f.buffer "image/svg+xml" now db.nextId db.rows
  have hmime' : r'.mime_type = some "image/svg+xml" := by
    rcases h6 with h6 | ⟨r, hr, hmr⟩
    · exact h6
    · exact hmr.trans (hmime r hr)
  have hfr : findRow (upsertImage db "a.svg" "a.svg" f.size f.buffer
      "image/svg+xml" now) "a.svg" = some r' := hfind
  rw [serveContentHandler_found hfr h4 (svgContentOk_ne_empty hsvg), hmime', jsOrStr_svg]

/-- Closed instance of C1 at a concrete upload into the empty table. -/
theorem C1_upload_then_fetch_round_trip_witness :
    (uploadRequestInline emptyDb (some sampleFile) "http" "h" true 7).1.status = 200 ∧
    serveContentHandler (uploadRequestInline emptyDb (some sampleFile) "http" "h" true 7).2
        "a.svg" =
      { status := 200, message := none, contentType := some "image/svg+xml",
        cacheControl := some "public, max-age=31536000", body := some sampleFile.buffer } :=
  C1_upload_then_fetch_round_trip emptyDb sampleFile "http" "h" 7 rfl (by decide) (by decide)
    (by simp [MimeInv, emptyDb])

/-- An inline-variant row for a.svg uploaded at time 5. -/
def rowA : ImageRow :=
  { id := 1, filename := "a.svg", original_name := some "a.svg", size := 3,
    content := some "<svg>A</svg>", mime_type := some "image/svg+xml", uploaded_at := 5 }

/-- An inline-variant table holding only `rowA`. -/
def dbA : InlineDb := { rows := [rowA], nextId := 2 }

/-- A filesystem-variant row for a.svg uploaded at time 5. -/
def fsRowA : FsRow :=
  { id := 1, filename := "a.svg", original_name := some "a.svg", size := 3, uploaded_at := 5 }

/-- A filesystem-variant table holding only `fsRowA`. -/
def fsDbA : FsDb := { rows := [fsRowA], nextId := 2 }

/-- An uploads directory holding a.svg created at time 5. -/
def fsStateA : FsState :=
  { files := [{ name := "a.svg", data := "<svg>A</svg>", statSize := 3, birthtime := 5 }] }

/-- A re-upload of a.svg with different content. -/
def reupFile : UploadedFile :=
  { originalname := "a.svg", mimetype := "image/svg+xml", size := 12, buffer := "<svg>BB</svg>" }

/-- C2 counterexample: in the filesystem variant, re-uploading a.svg with
different content at time 10 succeeds but leaves the metadata row at its
original uploadedAt value 5, refuting the claim that re-upload updates the
timestamp in both variants. -/
theorem C2_fs_reupload_keeps_timestamp_counterexample :
    (uploadRequestFs fsStateA fsDbA (some reupFile) "http" "h" true 10).1.status = 200 ∧
    ((uploadRequestFs fsStateA fsDbA (some reupFile) "http" "h" true 10).2.2.rows.find?
        (fun r => r.filename == "a.svg")).map FsRow.uploaded_at = some 5 ∧
    (5 : Nat) ≠ 10 := by
  decide

/-- C2 (amended): at most one metadata row per filename is preserved by the
upsert in both variants; re-uploading an existing filename updates, in the
inline variant, the row's originalName, size, content and uploadedAt while
preserving its id, and, in the filesystem variant, only the row's
originalName and size, preserving its id and its uploadedAt. -/
theorem C2_upsert_semantics (db : InlineDb) (fsdb : FsDb)
    (fn origName : String) (sz : Nat) (c : String) (now : Nat)
    (hu : UniqueFilenames db.rows) (hfu : UniqueFsFilenames fsdb.rows) :
    UniqueFilenames (upsertImage db fn origName sz c "image/svg+xml" now).rows ∧
    UniqueFsFilenames (upsertFsMeta fsdb fn origName sz now).rows ∧
    (∀ r, findRow db fn = some r →
      findRow (upsertImage db fn origName sz c "image/svg+xml" now) fn =
        some { r with original_name := some origName, size := sz, content := some c,
                      uploaded_at := now }) ∧
    (∀ q, fsdb.rows.find? (fun x => x.filename == fn) = some q →
      (upsertFsMeta fsdb fn origName sz now).rows.find? (fun x => x.filename == fn) =
        some { q with original_name := some origName, size := sz }) := by
  refine ⟨?_, ?_, ?_, ?_⟩
  · exact uniqueFilenames_upsertRows fn origName sz c "image/svg+xml" now db.nextId db.rows hu
  · exact uniqueFsFilenames_upsertFsRows fn origName sz now fsdb.nextId fsdb.rows hfu
  · intro r hr
    exact find?_upsertRows_found fn origName sz c "image/svg+xml" now db.nextId db.rows r hr
  · intro q hq
    exact find?_upsertFsRows_found fn origName sz now fsdb.nextId fsdb.rows q hq

/-- Closed instance of C2 (amended) at a concrete re-upload of a.svg. -/
theorem C2_upsert_semantics_witness :
    UniqueFilenames (upsertImage dbA "a.svg" "a.svg" 12 "<svg>BB</svg>" "image/svg+xml" 10).rows ∧
    findRow (upsertImage dbA "a.svg" "a.svg" 12 "<svg>BB</svg>" "image/svg+xml" 10) "a.svg" =
      some { rowA with original_name := some "a.svg", size := 12,
                       content := some "<svg>BB</svg>", uploaded_at := 10 } := by
  have h := C2_upsert_semantics dbA fsDbA "a.svg" "a.svg" 12 "<svg>BB</svg>" 10
    (List.pairwise_singleton _ _) (List.pairwise_singleton _ _)
  exact ⟨h.1, h.2.2.1 rowA (by decide)⟩

/-- C3 counterexample: a non-SVG upload (wrong MIME type, wrong extension)
is answered with status 500, not 400 — the file-filter error is a plain
Error, so the generic branch of the error middleware answers. -/
theorem C3_nonsvg_status_counterexample :
    (uploadRequestInline emptyDb (some badFile) "http" "h" true 0).1.status = 500 ∧
    (uploadRequestInline emptyDb (some badFile) "http" "h" true 0).1.status ≠ 400 := by
  decide

/-- C3 (amended): every upload whose file fails the SVG file filter is
rejected before any storage mutation in both variants, but with HTTP status
500 and message "Only SVG files are allowed!" rather than 400, because the
plain filter error falls into the generic branch of the error middleware. -/
theorem C3_nonsvg_rejected_no_mutation (db : InlineDb) (fs : FsState) (fsdb : FsDb)
    (f : UploadedFile) (proto host : String) (dbOk : Bool) (now : Nat)
    (h : fileFilter f = false) :
    uploadRequestInline db (some f) proto host dbOk now =
      ({ status := 500, success := false, message := "Only SVG files are allowed!",
         data := none }, db) ∧
    uploadRequestFs fs fsdb (some f) proto host dbOk now =
      ({ status := 500, success := false, message := "Only SVG files are allowed!",
         data := none }, fs, fsdb) := by
  constructor
  · rw [uploadRequestInline, h]
    simp [errorMiddleware, jsOrStr]
  · rw [uploadRequestFs, h]
    simp [errorMiddleware, jsOrStr]

/-- Closed instance of C3 (amended) at a concrete non-SVG upload. -/
theorem C3_nonsvg_rejected_no_mutation_witness :
    uploadRequestInline emptyDb (some badFile) "http" "h" true 0 =
      ({ status := 500, success := false, message := "Only SVG files are allowed!",
         data := none }, emptyDb) ∧
    uploadRequestFs emptyFs emptyFsDb (some badFile) "http" "h" true 0 =
      ({ status := 500, success := false, message := "Only SVG files are allowed!",
         data := none }, emptyFs, emptyFsDb) :=
  C3_nonsvg_rejected_no_mutation emptyDb emptyFs emptyFsDb badFile "http" "h" true 0 (by decide)

/-- C4: when the metadata upsert database call fails, the inline variant
answers 500 with message "Database error while saving image" and leaves the
table unchanged, while the filesystem variant still answers 200 reporting
success — the file has been written and its table is left unchanged. -/
theorem C4_db_error_divergence (db : InlineDb) (fs : FsState) (fsdb : FsDb)
    (f : UploadedFile) (proto host : String) (now : Nat)
    (hff : fileFilter f = true) (hsize : f.size ≤ fileSizeLimit)
    (hsvg : svgContentOk f.buffer = true) :
    uploadRequestInline db (some f) proto host false now =
      ({ status := 500, success := false, message := "Database error while saving image",
         data := none }, db) ∧
    (uploadRequestFs fs fsdb (some f) proto host false now).1.status = 200 ∧
    (uploadRequestFs fs fsdb (some f) proto host false now).1.success = true ∧
    (uploadRequestFs fs fsdb (some f) proto host false now).2.1 =
      writeFsFile fs f.originalname f.buffer f.size now ∧
    (uploadRequestFs fs fsdb (some f) proto host false now).2.2 = fsdb := by
  constructor
  · rw [uploadRequestInline_accepted db f proto host false now hff hsize,
      uploadHandlerInline, hsvg]
    simp
  · rw [uploadRequestFs, hff]
    simp only [Bool.not_true, Bool.false_eq_true, if_false]
    rw [if_neg (Nat.not_lt.mpr hsize)]
    simp

/-- Closed instance of C4 at a concrete upload with a failing database. -/
theorem C4_db_error_divergence_witness :
    uploadRequestInline emptyDb (some sampleFile) "http" "h" false 7 =
      ({ status := 500, success := false, message := "Database error while saving image",
         data := none }, emptyDb) ∧
    (uploadRequestFs emptyFs emptyFsDb (some sampleFile) "http" "h" false 7).1.status = 200 ∧
    (uploadRequestFs emptyFs emptyFsDb (some sampleFile) "http" "h" false 7).1.success = true ∧
    (uploadRequestFs emptyFs emptyFsDb (some sampleFile) "http" "h" false 7).2.1 =
      writeFsFile emptyFs sampleFile.originalname sampleFile.buffer sampleFile.size 7 ∧
    (uploadRequestFs emptyFs emptyFsDb (some sampleFile) "http" "h" false 7).2.2 = emptyFsDb :=
  C4_db_error_divergence emptyDb emptyFs emptyFsDb sampleFile "http" "h" 7
    (by decide) (by decide) (by decide)

/-- An upload named a.svg whose payload is not SVG text. -/
def notSvgContentFile : UploadedFile :=
  { originalname := "a.svg", mimetype := "image/svg+xml", size := 5, buffer := "hello" }

/-- C7: an upload reaching the inline handler whose decoded text does not
contain both the opening svg tag fragment and the closing svg tag is
rejected with 400 and message "Invalid SVG file format", the table
untouched (no database write). -/
theorem C7_invalid_svg_rejected (db : InlineDb) (f : UploadedFile)
    (proto host : String) (dbOk : Bool) (now : Nat)
    (hff : fileFilter f = true) (hsize : f.size ≤ fileSizeLimit)
    (h : svgContentOk f.buffer = false) :
    uploadRequestInline db (some f) proto host dbOk now =
      ({ status := 400, success := false, message := "Invalid SVG file format",
         data := none }, db) := by
  rw [uploadRequestInline_accepted db f proto host dbOk now hff hsize, uploadHandlerInline, h]
  simp

/-- Closed instance of C7 at a concrete upload of non-SVG text. -/
theorem C7_invalid_svg_rejected_witness :
    uploadRequestInline emptyDb (some notSvgContentFile) "http" "h" true 0 =
      ({ status := 400, success := false, message := "Invalid SVG file format",
         data := none }, emptyDb) :=
  C7_invalid_svg_rejected emptyDb notSvgContentFile "http" "h" true 0
    (by decide) (by decide) (by decide)

/-- A non-SVG upload one byte beyond the 5 MiB limit. -/
def bigBadFile : UploadedFile :=
  { originalname := "notes.txt", mimetype := "text/plain", size := 5242881, buffer := "x" }

/-- An SVG upload one byte beyond the 5 MiB limit. -/
def bigSvgFile : UploadedFile :=
  { originalname := "big.svg", mimetype := "image/svg+xml", size := 5242881,
    buffer := "<svg></svg>" }

/-- C8 counterexample: an upload larger than 5 MiB whose file also fails
the SVG filter is rejected by the filter error (status 500, message
"Only SVG files are allowed!") and never receives the 400 size message,
refuting the claim for every oversize upload. -/
theorem C8_oversize_nonsvg_counterexample :
    (uploadRequestInline emptyDb (some bigBadFile) "http" "h" true 0).1.status = 500 ∧
    (uploadRequestInline emptyDb (some bigBadFile) "http" "h" true 0).1.message ≠
      "File too large. Maximum size is 5MB." := by
  decide

/-- C8 (amended): every upload larger than 5 MiB that passes the SVG file
filter is rejected with 400 and the exact message "File too large. Maximum
size is 5MB.", with no storage mutation in either variant; an oversize file
failing the filter is rejected by the filter error instead. -/
theorem C8_oversize_rejected (db : InlineDb) (fs : FsState) (fsdb : FsDb)
    (f : UploadedFile) (proto host : String) (dbOk : Bool) (now : Nat)
    (hff : fileFilter f = true) (hsize : fileSizeLimit < f.size) :
    uploadRequestInline db (some f) proto host dbOk now =
      ({ status := 400, success := false, message := "File too large. Maximum size is 5MB.",
         data := none }, db) ∧
    uploadRequestFs fs fsdb (some f) proto host dbOk now =
      ({ status := 400, success := false, message := "File too large. Maximum size is 5MB.",
         data := none }, fs, fsdb) := by
  constructor
  · rw [uploadRequestInline, hff]
    simp only [Bool.not_true, Bool.false_eq_true, if_false]
    rw [if_pos hsize]
    simp [errorMiddleware]
  · rw [uploadRequestFs, hff]
    simp only [Bool.not_true, Bool.false_eq_true, if_false]
    rw [if_pos hsize]
    simp [errorMiddleware]

/-- Closed instance of C8 (amended) at a concrete oversize SVG upload. -/
theorem C8_oversize_rejected_witness :
    uploadRequestInline emptyDb (some bigSvgFile) "http" "h" true 0 =
      ({ status := 400, success := false, message := "File too large. Maximum size is 5MB.",
         data := none }, emptyDb) ∧
    uploadRequestFs emptyFs emptyFsDb (some bigSvgFile) "http" "h" true 0 =
      ({ status := 400, success := false, message := "File too large. Maximum size is 5MB.",
         data := none }, emptyFs, emptyFsDb) :=
  C8_oversize_rejected emptyDb emptyFs emptyFsDb bigSvgFile "http" "h" true 0
    (by decide) (by decide)

/-- The observable core of a serve reply: status and, on success, the two
headers and the body (the claim does not constrain the 404 JSON text). -/
structure ServeCore where
  status : Nat
  contentType : Option String
  cacheControl : Option String
  body : Option String
deriving Repr, DecidableEq

/-- Forget the JSON message of a serve reply. -/
def serveCoreOf (r : ServeResp) : ServeCore :=
  { status := r.status, contentType := r.contentType, cacheControl := r.cacheControl,
    body := r.body }

/-- Specification of the serve route, written from the words of the claim:
404 when no row exists for the filename or the row's content column is
null or empty; otherwise 200 with Content-Type the stored mime_type
defaulting to image/svg+xml, Cache-Control public, max-age=31536000, and
the raw stored SVG text as the body. -/
def serveSpec (db : InlineDb) (fn : String) : ServeCore :=
  match findRow db fn with
  | none => { status := 404, contentType := none, cacheControl := none, body := none }
  | some row =>
      match row.content with
      | none => { status := 404, contentType := none, cacheControl := none, body := none }
      | some c =>
          if c = "" then
            { status := 404, contentType := none, cacheControl := none, body := none }
          else
            { status := 200, contentType := some (jsOrStr row.mime_type "image/svg+xml"),
              cacheControl := some "public, max-age=31536000", body := some c }

/-- C5: the inline serve handler meets the serve specification — 404 exactly
when the row is missing or its content column is null or empty, otherwise
200 with the stored MIME type (default image/svg+xml), the one-year cache
header, and the raw stored text as body. -/
theorem C5_serve_contract (db : InlineDb) (fn : String) :
    serveCoreOf (serveContentHandler db fn) = serveSpec db fn := by
  cases hfind : findRow db fn with
  | none => simp [serveContentHandler, serveSpec, hfind, serveCoreOf]
  | some row =>
      cases hc : row.content with
      | none => simp [serveContentHandler, serveSpec, hfind, hc, serveCoreOf]
      | some c =>
          by_cases hce : c = ""
          · simp [serveContentHandler, serveSpec, hfind, hc, hce, serveCoreOf]
          · simp [serveContentHandler, serveSpec, hfind, hc, hce, serveCoreOf,
              beq_eq_false_iff_ne.mpr hce]

theorem deleteCount_after_delete (fn : String) (rows : List ImageRow) :
    ((deleteRows fn rows).filter (fun r => r.filename == fn)).length = 0 := by
  have h : (deleteRows fn rows).filter (fun r => r.filename == fn) = [] := by
    rw [List.filter_eq_nil_iff]
    intro a ha
    simpa using deleteRows_not_mem fn rows a ha
  rw [h]
  rfl

theorem fsHasFile_after_delete (fs : FsState) (fn : String) :
    fsHasFile { files := fs.files.filter (fun g => !(g.name == fn)) } fn = false := by
  rw [fsHasFile, List.any_eq_false]
  intro g hg
  have h := (List.mem_filter.mp hg).2
  simpa using h

/-- C6: DELETE /images/:filename answers 404 exactly when the image does not
exist — in the inline variant exactly when the delete statement affected
zero rows, in the filesystem variant when the file is absent — answers 200
with JSON success true and message "Image deleted successfully" otherwise,
and deleting the same filename twice in a row yields 200 then 404, in both
variants. -/
theorem C6_delete_semantics (db : InlineDb) (fs : FsState) (fsdb : FsDb)
    (fn : String) (dbOk : Bool) :
    ((deleteHandlerInline db fn).1.status = 404 ↔ deleteCount db fn = 0) ∧
    (deleteCount db fn ≠ 0 →
      (deleteHandlerInline db fn).1 =
        { status := 200, success := true, message := "Image deleted successfully" }) ∧
    ((deleteHandlerInline db fn).1.status = 200 →
      (deleteHandlerInline (deleteHandlerInline db fn).2 fn).1.status = 404) ∧
    ((deleteHandlerFs fs fsdb fn dbOk).1.status = 404 ↔ fsHasFile fs fn = false) ∧
    (fsHasFile fs fn = true →
      (deleteHandlerFs fs fsdb fn dbOk).1 =
        { status := 200, success := true, message := "Image deleted successfully" }) ∧
    ((deleteHandlerFs fs fsdb fn dbOk).1.status = 200 →
      (deleteHandlerFs (deleteHandlerFs fs fsdb fn dbOk).2.1
          (deleteHandlerFs fs fsdb fn dbOk).2.2 fn dbOk).1.status = 404) := by
  refine ⟨?_, ?_, ?_, ?_, ?_, ?_⟩
  · by_cases hc : deleteCount db fn = 0
    · simp [deleteHandlerInline, hc]
    · simp [deleteHandlerInline, hc]
  · intro hcnt
    simp [deleteHandlerInline, hcnt]
  · intro h200
    by_cases hc : deleteCount db fn = 0
    · exfalso
      simp [deleteHandlerInline, hc] at h200
    · have hsnd : (deleteHandlerInline db fn).2 =
          { rows := deleteRows fn db.rows, nextId := db.nextId } := by
        simp only [deleteHandlerInline]
        split <;> rfl
      rw [hsnd]
      simp [deleteHandlerInline, deleteCount, deleteCount_after_delete fn db.rows]
  · by_cases hfs : fsHasFile fs fn = true
    · simp [deleteHandlerFs, hfs]
    · rw [Bool.not_eq_true] at hfs
      simp [deleteHandlerFs, hfs]
  · intro hfs
    simp [deleteHandlerFs, hfs]
  · intro h200
    by_cases hfs : fsHasFile fs fn = true
    · have h1 : (deleteHandlerFs fs fsdb fn dbOk).2.1 =
          { files := fs.files.filter (fun g => !(g.name == fn)) } := by
        simp [deleteHandlerFs, hfs]
      rw [h1]
      simp [deleteHandlerFs, fsHasFile_after_delete fs fn]
    · exfalso
      rw [Bool.not_eq_true] at hfs
      simp [deleteHandlerFs, hfs] at h200

/-- Closed instance of C6 at a concrete table and directory holding a.svg:
both variants answer 200 on the first delete and 404 on the second. -/
theorem C6_delete_semantics_witness :
    (deleteHandlerInline dbA "a.svg").1 =
      { status := 200, success := true, message := "Image deleted successfully" } ∧
    (deleteHandlerInline (deleteHandlerInline dbA "a.svg").2 "a.svg").1.status = 404 ∧
    (deleteHandlerFs fsStateA fsDbA "a.svg" true).1 =
      { status := 200, success := true, message := "Image deleted successfully" } ∧
    (deleteHandlerFs (deleteHandlerFs fsStateA fsDbA "a.svg" true).2.1
        (deleteHandlerFs fsStateA fsDbA "a.svg" true).2.2 "a.svg" true).1.status = 404 := by
  have h := C6_delete_semantics dbA fsStateA fsDbA "a.svg" true
  exact ⟨h.2.1 (by decide), h.2.2.1 (by decide), h.2.2.2.2.1 (by decide),
         h.2.2.2.2.2 (by decide)⟩

theorem uploadRequestInline_snd (db : InlineDb) (file : Option UploadedFile)
    (proto host : String) (dbOk : Bool) (now : Nat) :
    (uploadRequestInline db file proto host dbOk now).2 = db ∨
    ∃ f : UploadedFile, file = some f ∧
      (uploadRequestInline db file proto host dbOk now).2 =
        upsertImage db f.originalname f.originalname f.size f.buffer "image/svg+xml" now := by
  cases file with
  | none => exact Or.inl rfl
  | some f =>
      rw [uploadRequestInline]
      cases hff : fileFilter f with
      | false => exact Or.inl (by simp)
      | true =>
          simp only [Bool.not_true, Bool.false_eq_true, if_false]
          by_cases hsz : fileSizeLimit < f.size
          · rw [if_pos hsz]
            exact Or.inl rfl
          · rw [if_neg hsz, uploadHandlerInline]
            cases hsvg : svgContentOk f.buffer with
            | false => exact Or.inl (by simp)
            | true =>
                cases dbOk with
                | false => exact Or.inl (by simp)
                | true =>
                    refine Or.inr ⟨f, rfl, ?_⟩
                    simp

/-- C10: every row the inline upload route writes carries the constant
mime_type image/svg+xml — the invariant holds after any upload request and
any delete, over any table already satisfying it — and under the invariant
the serve handler emits Content-Type image/svg+xml whenever it answers
200. -/
theorem C10_mime_type_constant (db : InlineDb) (file : Option UploadedFile)
    (proto host : String) (dbOk : Bool) (now : Nat) (fn : String)
    (hinv : MimeInv db) :
    MimeInv (uploadRequestInline db file proto host dbOk now).2 ∧
    MimeInv (deleteHandlerInline db fn).2 ∧
    ((serveContentHandler db fn).status = 200 →
      (serveContentHandler db fn).contentType = some "image/svg+xml") := by
  refine ⟨?_, ?_, ?_⟩
  · rcases uploadRequestInline_snd db file proto host dbOk now with h | ⟨f, _, h⟩
    · rw [h]; exact hinv
    · rw [h]
      intro r hr
      exact mimeInv_upsertRows f.originalname f.originalname f.size f.buffer now db.nextId
        db.rows hinv r hr
  · have hsnd : (deleteHandlerInline db fn).2 =
        { rows := deleteRows fn db.rows, nextId := db.nextId } := by
      simp only [deleteHandlerInline]
      split <;> rfl
    rw [hsnd]
    intro r hr
    exact hinv r (List.mem_of_mem_filter hr)
  · cases hfind : findRow db fn with
    | none =>
        intro h
        rw [serveContentHandler, hfind] at h
        exact absurd h (by decide)
    | some row =>
        have hrow : row ∈ db.rows := List.mem_of_find?_eq_some hfind
        cases hc : row.content with
        | none =>
            intro h
            simp [serveContentHandler, hfind, hc] at h
        | some c =>
            by_cases hce : c = ""
            · intro h
              simp [serveContentHandler, hfind, hc, hce] at h
            · intro _
              rw [serveContentHandler, hfind]
              simp only [hc, beq_eq_false_iff_ne.mpr hce, Bool.false_eq_true, if_false]
              rw [hinv row hrow, jsOrStr_svg]

/-- Closed instance of C10 at a concrete re-upload over a one-row table. -/
theorem C10_mime_type_constant_witness :
    MimeInv (uploadRequestInline dbA (some reupFile) "http" "h" true 10).2 ∧
    MimeInv (deleteHandlerInline dbA "a.svg").2 ∧
    ((serveContentHandler dbA "a.svg").status = 200 →
      (serveContentHandler dbA "a.svg").contentType = some "image/svg+xml") :=
  C10_mime_type_constant dbA (some reupFile) "http" "h" true 10 "a.svg"
    (by
      intro r hr
      have h : r = rowA := by simpa [dbA] using hr
      rw [h]
      rfl)

/-- A second inline-variant row, uploaded later than `rowA` and lacking an
original name. -/
def rowB : ImageRow :=
  { id := 2, filename := "b.svg", original_name := none, size := 4,
    content := some "<svg>B</svg>", mime_type := some "image/svg+xml", uploaded_at := 9 }

/-- A two-row inline table. -/
def dbAB : InlineDb := { rows := [rowA, rowB], nextId := 3 }

/-- A file on disk with no metadata row. -/
def fsFileC : FsFile := { name := "c.svg", data := "<svg>C</svg>", statSize := 8, birthtime := 4 }

/-- An uploads directory holding only `fsFileC`. -/
def fsStateC : FsState := { files := [fsFileC] }

/-- C9: the inline list route returns one entry per row — carrying the row's
filename, originalName (falling back to the filename when original_name is
null or empty), the access URL as both url and directUrl, size and
uploadedAt — ordered by uploadedAt descending; in the filesystem variant a
listed .svg file lacking a metadata row gets an entry whose originalName is
the filename and whose size and timestamp come from filesystem stat data. -/
theorem C9_list_contract (db : InlineDb) (fs : FsState) (fsdb : FsDb)
    (proto host : String) :
    ((listHandlerInline db proto host true).images.Pairwise
      (fun a b => b.uploadedAt ≤ a.uploadedAt)) ∧
    (∀ r ∈ db.rows, ∃ e ∈ (listHandlerInline db proto host true).images,
      e.filename = r.filename ∧ e.originalName = jsOrStr r.original_name r.filename ∧
      e.url = imageUrlOf proto host r.filename ∧ e.directUrl = e.url ∧
      e.size = r.size ∧ e.uploadedAt = r.uploaded_at) ∧
    (∀ e ∈ (listHandlerInline db proto host true).images, ∃ r ∈ db.rows,
      e = entryOfRow proto host r) ∧
    (∀ g ∈ fs.files, strEndsWith (strToLower g.name) ".svg" = true →
      fsdb.rows.find? (fun r => r.filename == g.name) = none →
      { filename := g.name, originalName := g.name,
        url := imageUrlOf proto host g.name, directUrl := imageUrlOf proto host g.name,
        size := g.statSize, uploadedAt := g.birthtime } ∈
        (listHandlerFs fs fsdb true proto host).images) := by
  have himg : (listHandlerInline db proto host true).images =
      (sortRowsDesc db.rows).map (entryOfRow proto host) := rfl
  refine ⟨?_, ?_, ?_, ?_⟩
  · rw [himg]
    exact List.Pairwise.map (entryOfRow proto host) (fun a b hab => hab)
      (List.sorted_insertionSort rowAfter db.rows)
  · intro r hr
    have hmem : r ∈ sortRowsDesc db.rows :=
      ((List.perm_insertionSort rowAfter db.rows).mem_iff).mpr hr
    refine ⟨entryOfRow proto host r, ?_, rfl, rfl, rfl, rfl, rfl, rfl⟩
    rw [himg]
    exact List.mem_map_of_mem (entryOfRow proto host) hmem
  · intro e he
    rw [himg] at he
    obtain ⟨r, hr, hre⟩ := List.mem_map.mp he
    exact ⟨r, ((List.perm_insertionSort rowAfter db.rows).mem_iff).mp hr, hre.symm⟩
  · intro g hg hsvg hnone
    have hmem : g ∈ fs.files.filter (fun x => strEndsWith (strToLower x.name) ".svg") :=
      List.mem_filter.mpr ⟨hg, hsvg⟩
    have hentry : fsEntryOf fsdb true proto host g =
        { filename := g.name, originalName := g.name,
          url := imageUrlOf proto host g.name, directUrl := imageUrlOf proto host g.name,
          size := g.statSize, uploadedAt := g.birthtime } := by
      simp [fsEntryOf, hnone, jsOrStr, jsOrNat]
    rw [← hentry]
    exact List.mem_map_of_mem (fsEntryOf fsdb true proto host) hmem

/-- Closed instance of C9: a file on disk with no metadata row is listed
with its stat size and creation time. -/
theorem C9_list_contract_witness :
    { filename := "c.svg", originalName := "c.svg",
      url := imageUrlOf "http" "h" "c.svg", directUrl := imageUrlOf "http" "h" "c.svg",
      size := 8, uploadedAt := 4 } ∈
      (listHandlerFs fsStateC emptyFsDb true "http" "h").images :=
  (C9_list_contract dbAB fsStateC emptyFsDb "http" "h").2.2.2 fsFileC
    (by decide) (by decide) (by decide)

end ImageApi
